import Mathlib

/-!
Shallow embedding of the review-scheduling and gamification core of the
student-mistakes system (backend/services/review_scheduler.py,
backend/services/gamification.py, backend/api/routes/reviews.py).

Dates are modelled as integer day numbers; Python floats are modelled as
exact rationals; ORM tables are modelled as lists of typed rows in the
order the rows were inserted (`.first()` returns the head of the filtered
list, `db.add` appends).
-/

namespace StudentMistakes

/-- Truncation toward zero, as Python's `int(...)` applied to a float. -/
def toIntTrunc (q : ℚ) : ℤ := if q < 0 then -⌊-q⌋ else ⌊q⌋

/-- Modelled from the spec: `settings.spaced_repetition` is referenced by
`review_scheduler.py` but no such section is defined in
`src/backend/config/settings.py`; the spec (§2 Clock/Config, §4.1, §9
SchedulerConfig) names these tunable constants, so they are taken as an
explicit configuration record. -/
structure SRConfig where
  initial_interval : ℤ
  min_ease_factor : ℚ
  max_ease_factor : ℚ
  good_multiplier : ℚ
  easy_multiplier : ℚ
deriving DecidableEq

/-- `ReviewScheduler.calculate_next_review_date` (review_scheduler.py lines
17-53).  Returns `some` of the next review day; the `Option` mirrors the
Python `Optional[datetime]` signature, whose body in fact always returns a
date. -/
def calculate_next_review_date (cfg : SRConfig) (last_review_date : ℤ)
    (performance_rating : ℤ) (current_interval : ℤ) (ease_factor : ℚ) :
    Option ℤ :=
  let next_interval : ℚ :=
    if performance_rating < 3 then
      (cfg.initial_interval : ℚ)
    else
      let base : ℚ := (current_interval : ℚ) * ease_factor
      if performance_rating = 3 then base * cfg.good_multiplier
      else if performance_rating = 4 then base * cfg.easy_multiplier
      else base
  let capped : ℚ := min next_interval 365
  some (last_review_date + toIntTrunc capped)

/-- `ReviewScheduler.update_spaced_repetition` (review_scheduler.py lines
55-96).  Returns `(new_interval, new_ease_factor, new_repetitions)`. -/
def update_spaced_repetition (cfg : SRConfig) (current_interval : ℤ)
    (ease_factor : ℚ) (repetitions : ℤ) (performance_rating : ℤ) :
    ℤ × ℚ × ℤ :=
  let stage : ℚ × ℤ :=
    if performance_rating ≥ 3 then
      (max (ease_factor +
            (1/10 - ((5:ℚ) - (performance_rating : ℚ)) *
              (8/100 + ((5:ℚ) - (performance_rating : ℚ)) * (2/100))))
        cfg.min_ease_factor,
       repetitions + 1)
    else
      (max (ease_factor - 2/10) cfg.min_ease_factor, 0)
  let new_ease_factor : ℚ := min stage.1 cfg.max_ease_factor
  let new_repetitions : ℤ := stage.2
  let new_interval : ℚ :=
    if new_repetitions = 1 then (cfg.initial_interval : ℚ)
    else if new_repetitions = 2 then 6
    else (current_interval : ℚ) * new_ease_factor
  (toIntTrunc new_interval, new_ease_factor, new_repetitions)

/-- A concrete configuration used for witnesses and counterexamples
(initial interval 1 day, ease bounds [1.3, 2.5], good 1.2, easy 1.3). -/
def cfg0 : SRConfig :=
  { initial_interval := 1, min_ease_factor := 13/10, max_ease_factor := 5/2
    good_multiplier := 6/5, easy_multiplier := 13/10 }

/-- A concrete configuration with a higher ease ceiling (3.0), used where a
claim needs the 2.6 ease value to survive the final clamp. -/
def cfg1 : SRConfig :=
  { initial_interval := 1, min_ease_factor := 13/10, max_ease_factor := 3
    good_multiplier := 6/5, easy_multiplier := 13/10 }

/-- Modelled from the spec: `models/user_progress.py` is not under `src/`;
spec §3 gives the per-owner progress record and its initial values
(created lazily with zero streaks/points). -/
structure UserProgress where
  current_streak : ℤ
  longest_streak : ℤ
  total_reviews : ℤ
  total_points : ℤ
  last_review_date : Option ℤ
deriving DecidableEq

/-- Initial values of a lazily created `UserProgress` row. -/
def UserProgress.init : UserProgress :=
  { current_streak := 0, longest_streak := 0, total_reviews := 0
    total_points := 0, last_review_date := none }

/-- Modelled from the spec: `models/achievement.py` is not under `src/`;
spec §3 gives the unlock record (the fields written by
`GamificationEngine._award_achievement`). -/
structure AchievementRow where
  user_id : String
  achievement_type : String
  achievement_name : String
  descr : String
  points_awarded : ℤ
deriving DecidableEq

/-- Modelled from the spec: `models/review_history.py` is not under `src/`;
spec §3 gives the append-only log entry.  `user_id` is optional because the
batch endpoint creates history rows without setting it. -/
structure ReviewHistoryRow where
  user_id : Option String
  mistake_id : String
  performance_rating : ℤ
  review_date : ℤ
deriving DecidableEq

/-- The mutable state read and written by `GamificationEngine`: the
`UserProgress` table (as an association list keyed by user id), the
`Achievement` table and the `ReviewHistory` table, each in insertion
order. -/
structure GamDB where
  progress : List (String × UserProgress)
  achievements : List AchievementRow
  history : List ReviewHistoryRow
deriving DecidableEq

/-- `db.query(UserProgress).filter(user_id == uid).first()`. -/
def lookupProgress (l : List (String × UserProgress)) (uid : String) :
    Option UserProgress :=
  (l.find? (fun x => x.1 == uid)).map (fun x => x.2)

/-- Write back the (possibly lazily created) progress row of `uid`:
replaces the first row keyed `uid`, or appends a fresh one (`db.add`). -/
def setProgress : List (String × UserProgress) → String → UserProgress →
    List (String × UserProgress)
  | [], uid, p => [(uid, p)]
  | (u, q) :: rest, uid, p =>
    if u == uid then (u, p) :: rest else (u, q) :: setProgress rest uid p

/-- `GamificationEngine.POINTS_CONFIG.get(action, 0)` (gamification.py
lines 17-21, 25). -/
def POINTS_CONFIG (action : String) : ℤ :=
  if action == "mistake_uploaded" then 10
  else if action == "review_completed" then 5
  else if action == "correct_answer" then 15
  else 0

/-- `GamificationEngine.award_points` (gamification.py lines 23-38).
Returns the points awarded together with the updated state. -/
def award_points (db : GamDB) (uid : String) (action : String)
    (multiplier : ℤ := 1) : ℤ × GamDB :=
  let total_points := POINTS_CONFIG action * multiplier
  if total_points > 0 then
    let p := (lookupProgress db.progress uid).getD UserProgress.init
    let p' := { p with total_points := p.total_points + total_points }
    (total_points, { db with progress := setProgress db.progress uid p' })
  else
    (total_points, db)

/-- `GamificationEngine.update_streak` (gamification.py lines 40-64).
`today` is the current day number (`date.today()`). -/
def update_streak (db : GamDB) (uid : String) (today : ℤ) : GamDB :=
  let recent_reviews := db.history.filter
    (fun h => h.user_id == some uid && decide (today ≤ h.review_date))
  let p := (lookupProgress db.progress uid).getD UserProgress.init
  let p' :=
    if recent_reviews.isEmpty then
      { p with current_streak := 0 }
    else
      let s := min (p.current_streak + 1) 365
      { p with last_review_date := some today, current_streak := s
               longest_streak := max p.longest_streak s }
  { db with progress := setProgress db.progress uid p' }

/-- The existence test of `GamificationEngine._award_achievement`
(gamification.py lines 90-92). -/
def hasAch (db : GamDB) (uid ty : String) : Bool :=
  db.achievements.any (fun a => a.user_id == uid && a.achievement_type == ty)

/-- `GamificationEngine._award_achievement` (gamification.py lines 88-103):
inserts an `Achievement` row, with `points_awarded` fixed at 50, unless one
already exists for `(uid, ty)`. -/
def award_achievement (db : GamDB) (uid ty : String) : GamDB :=
  if hasAch db uid ty then db
  else
    { db with achievements := db.achievements ++
        [{ user_id := uid, achievement_type := ty
           achievement_name := "Achievement " ++ ty
           descr := "Earned " ++ ty ++ " achievement"
           points_awarded := 50 }] }

/-- One entry of the list returned by
`GamificationEngine.check_achievements`. -/
structure UnlockInfo where
  type : String
  name : String
  points : ℤ
deriving DecidableEq

/-- The threshold checks of `GamificationEngine.check_achievements`
(gamification.py lines 74-86) applied to a located progress row: each
threshold that is met awards the achievement (idempotently) and appends an
entry to the returned list (unconditionally). -/
def checkSteps (db : GamDB) (uid : String) (progress : UserProgress) :
    List UnlockInfo × GamDB :=
  let s1 : List UnlockInfo × GamDB :=
    if progress.current_streak ≥ 7 then
      ([{ type := "streak", name := "连续学习7天", points := 50 }],
       award_achievement db uid "streak_7_days")
    else ([], db)
  let s2 : List UnlockInfo × GamDB :=
    if progress.current_streak ≥ 30 then
      (s1.1 ++ [{ type := "streak", name := "学习达人", points := 200 }],
       award_achievement s1.2 uid "streak_30_days")
    else s1
  let s3 : List UnlockInfo × GamDB :=
    if progress.total_reviews ≥ 100 then
      (s2.1 ++ [{ type := "total_reviews", name := "百题达人", points := 150 }],
       award_achievement s2.2 uid "total_reviews_100")
    else s2
  s3

/-- `GamificationEngine.check_achievements` (gamification.py lines 66-86):
returns the list built while checking the three thresholds, together with
the updated state. -/
def check_achievements (db : GamDB) (uid : String) :
    List UnlockInfo × GamDB :=
  match lookupProgress db.progress uid with
  | none => ([], db)
  | some progress => checkSteps db uid progress

/-- Modelled from the spec: `models/scheduled_review.py` is not under
`src/`; spec §3 gives the scheduled-review row (the fields read and
written by `complete_reviews`). -/
structure ScheduledReviewRow where
  mistake_id : String
  scheduled_date : ℤ
  interval_days : ℤ
  ease_factor : ℚ
  repetitions : ℤ
  is_completed : Bool
deriving DecidableEq

/-- The request body element of `POST /complete` (reviews.py lines 25-29);
the optional `time_spent_seconds`/`notes` fields play no algorithmic
role. -/
structure ReviewSession where
  mistake_id : String
  performance_rating : ℤ
deriving DecidableEq

/-- The full state touched by the batch endpoint: the `ScheduledReview`
table plus the gamification tables. -/
structure AppDB where
  scheduled : List ScheduledReviewRow
  gam : GamDB
deriving DecidableEq

/-- One element of the `completed_reviews` response list (reviews.py lines
183-188). -/
structure CompletionResult where
  mistake_id : String
  points_awarded : ℤ
  new_achievements : List UnlockInfo
  next_review_date : Option ℤ
deriving DecidableEq

/-- The row predicate of the lookup in `complete_reviews` (reviews.py
lines 118-127): same `mistake_id`, not yet completed. -/
def isPendingFor (m : String) (r : ScheduledReviewRow) : Bool :=
  r.mistake_id == m && !r.is_completed

/-- `result.scalars().first()` over the pending-row filter. -/
def findPending (rows : List ScheduledReviewRow) (m : String) :
    Option ScheduledReviewRow :=
  rows.find? (isPendingFor m)

/-- Flip `is_completed` on the first pending row for `m`, in place
(reviews.py lines 149-150 mutate the located ORM row). -/
def closeFirstPending : List ScheduledReviewRow → String →
    List ScheduledReviewRow
  | [], _ => []
  | r :: rs, m =>
    if isPendingFor m r then { r with is_completed := true } :: rs
    else r :: closeFirstPending rs m

/-- The body of the `for session in review_sessions` loop of
`complete_reviews` (reviews.py lines 116-188) for one session: locate the
pending row (skip the session if none), update the spaced-repetition
parameters, close the row, append the successor row, append history, award
points, update the streak and check achievements for the hard-coded user
"anonymous".  `now` is the current day number. -/
def complete_one (cfg : SRConfig) (now : ℤ) (db : AppDB)
    (session : ReviewSession) : AppDB × Option CompletionResult :=
  match findPending db.scheduled session.mistake_id with
  | none => (db, none)
  | some scheduled_review =>
    let upd := update_spaced_repetition cfg scheduled_review.interval_days
      scheduled_review.ease_factor scheduled_review.repetitions
      session.performance_rating
    let next_review_date := calculate_next_review_date cfg now
      session.performance_rating upd.1 upd.2.1
    let closed := closeFirstPending db.scheduled session.mistake_id
    let sched' :=
      match next_review_date with
      | some d => closed ++
          [{ mistake_id := session.mistake_id, scheduled_date := d
             interval_days := upd.1, ease_factor := upd.2.1
             repetitions := upd.2.2, is_completed := false }]
      | none => closed
    let gam1 := { db.gam with history := db.gam.history ++
        [{ user_id := none, mistake_id := session.mistake_id
           performance_rating := session.performance_rating
           review_date := now }] }
    let pts := award_points gam1 "anonymous" "review_completed"
    let gam2 := update_streak pts.2 "anonymous" now
    let ach := check_achievements gam2 "anonymous"
    ({ scheduled := sched', gam := ach.2 },
     some { mistake_id := session.mistake_id, points_awarded := pts.1
            new_achievements := ach.1
            next_review_date := next_review_date })

/-- `complete_reviews` (reviews.py lines 108-195): fold the per-session
body over the batch, collecting the per-item results in order. -/
def complete_reviews (cfg : SRConfig) (now : ℤ) (db : AppDB) :
    List ReviewSession → AppDB × List CompletionResult
  | [] => (db, [])
  | s :: rest =>
    let step := complete_one cfg now db s
    let tail := complete_reviews cfg now step.1 rest
    (tail.1, step.2.toList ++ tail.2)

/-- The number of pending `ScheduledReview` rows for an item. -/
def pendingCount (rows : List ScheduledReviewRow) (m : String) : ℕ :=
  (rows.filter (isPendingFor m)).length

/-! ### Helper lemmas -/

lemma toIntTrunc_intCast (n : ℤ) : toIntTrunc (n : ℚ) = n := by
  unfold toIntTrunc
  split_ifs with h
  · rw [show (-(n:ℚ)) = (((-n : ℤ)) : ℚ) by push_cast; ring, Int.floor_intCast]
    ring
  · rw [Int.floor_intCast]

/-- The success branch of `update_spaced_repetition`, written out. -/
lemma update_success (cfg : SRConfig) (ci : ℤ) (ef : ℚ) (reps r : ℤ)
    (hr : 3 ≤ r) :
    update_spaced_repetition cfg ci ef reps r =
      (toIntTrunc (if reps + 1 = 1 then (cfg.initial_interval : ℚ)
        else if reps + 1 = 2 then 6
        else (ci : ℚ) *
          min (max (ef + (1/10 - ((5:ℚ) - (r : ℚ)) *
              (8/100 + ((5:ℚ) - (r : ℚ)) * (2/100)))) cfg.min_ease_factor)
            cfg.max_ease_factor),
       min (max (ef + (1/10 - ((5:ℚ) - (r : ℚ)) *
           (8/100 + ((5:ℚ) - (r : ℚ)) * (2/100)))) cfg.min_ease_factor)
         cfg.max_ease_factor,
       reps + 1) := by
  unfold update_spaced_repetition
  dsimp only
  rw [if_pos (show r ≥ 3 from hr)]

/-- The failure branch of `update_spaced_repetition`, written out. -/
lemma update_failure (cfg : SRConfig) (ci : ℤ) (ef : ℚ) (reps r : ℤ)
    (hr : r < 3) :
    update_spaced_repetition cfg ci ef reps r =
      (toIntTrunc ((ci : ℚ) *
          min (max (ef - 2/10) cfg.min_ease_factor) cfg.max_ease_factor),
       min (max (ef - 2/10) cfg.min_ease_factor) cfg.max_ease_factor, 0) := by
  unfold update_spaced_repetition
  dsimp only
  rw [if_neg (show ¬ (r ≥ 3) by omega)]
  norm_num

/-! ### Theorems about the claims -/

/-- C7: for all valid inputs (rating in [0,5], minEase ≤ maxEase), the ease
factor returned by `updateParameters` lies within [minEase, maxEase]: the
upper clamp is applied unconditionally after both branches and each branch
applies the lower clamp. -/
theorem C7_ease_factor_within_bounds (cfg : SRConfig) (ci : ℤ) (ef : ℚ)
    (reps r : ℤ) (hr0 : 0 ≤ r) (hr5 : r ≤ 5)
    (hmm : cfg.min_ease_factor ≤ cfg.max_ease_factor) :
    cfg.min_ease_factor ≤ (update_spaced_repetition cfg ci ef reps r).2.1 ∧
    (update_spaced_repetition cfg ci ef reps r).2.1 ≤ cfg.max_ease_factor := by
  unfold update_spaced_repetition
  dsimp only
  constructor
  · split_ifs <;> simp [le_min_iff, hmm, le_max_right]
  · split_ifs <;> simp [min_le_right]

theorem C7_ease_factor_within_bounds_witness :
    (0 ≤ (4:ℤ) ∧ (4:ℤ) ≤ 5 ∧ cfg0.min_ease_factor ≤ cfg0.max_ease_factor) ∧
    (cfg0.min_ease_factor ≤ (update_spaced_repetition cfg0 1 (5/2) 0 4).2.1 ∧
     (update_spaced_repetition cfg0 1 (5/2) 0 4).2.1 ≤ cfg0.max_ease_factor) :=
  ⟨⟨by decide, by decide, by norm_num [cfg0]⟩,
   C7_ease_factor_within_bounds cfg0 1 (5/2) 0 4 (by decide) (by decide)
     (by norm_num [cfg0])⟩

/-- C6: in `updateParameters` the new interval is selected by the new
repetition count: 1 yields the configured initial interval, 2 yields the
hard-coded 6 days independent of configuration, and more than 2 yields the
pre-update current interval multiplied by the freshly computed new ease,
truncated to an integer. -/
theorem C6_interval_selected_by_repetitions (cfg : SRConfig) (ci : ℤ)
    (ef : ℚ) (reps r : ℤ) :
    ((update_spaced_repetition cfg ci ef reps r).2.2 = 1 →
      (update_spaced_repetition cfg ci ef reps r).1 = cfg.initial_interval) ∧
    ((update_spaced_repetition cfg ci ef reps r).2.2 = 2 →
      (update_spaced_repetition cfg ci ef reps r).1 = 6) ∧
    ((update_spaced_repetition cfg ci ef reps r).2.2 > 2 →
      (update_spaced_repetition cfg ci ef reps r).1 =
        toIntTrunc ((ci : ℚ) * (update_spaced_repetition cfg ci ef reps r).2.1)) := by
  by_cases hr : 3 ≤ r
  · rw [update_success cfg ci ef reps r hr]
    refine ⟨?_, ?_, ?_⟩ <;> dsimp only <;> intro h
    · rw [if_pos h, toIntTrunc_intCast]
    · rw [if_neg (by omega), if_pos h]
      norm_num [toIntTrunc]
    · rw [if_neg (by omega), if_neg (by omega)]
  · rw [update_failure cfg ci ef reps r (by omega)]
    refine ⟨?_, ?_, ?_⟩ <;> dsimp only <;> intro h
    · exact absurd h (by decide)
    · exact absurd h (by decide)
    · exact absurd h (by decide)

theorem C6_interval_selected_by_repetitions_witness :
    (update_spaced_repetition cfg1 6 (13/5) 2 4).2.2 > 2 ∧
    (update_spaced_repetition cfg1 6 (13/5) 2 4).1 =
      toIntTrunc (((6:ℤ) : ℚ) * (update_spaced_repetition cfg1 6 (13/5) 2 4).2.1) :=
  ⟨by rw [update_success cfg1 6 (13/5) 2 4 (by omega)]; norm_num,
   (C6_interval_selected_by_repetitions cfg1 6 (13/5) 2 4).2.2
     (by rw [update_success cfg1 6 (13/5) 2 4 (by omega)]; norm_num)⟩

/-- C9: for every failure rating (rating < 3), `updateParameters` returns
zero repetitions, and because 0 matches neither repetition case 1 nor 2,
the returned interval is the truncated product of the pre-update interval
and the new (decreased, clamped) ease factor — not a reset to the initial
interval; the reset to the initial interval on failure happens only in
`nextReviewDate`. -/
theorem C9_failure_takes_growth_branch (cfg : SRConfig) (last ci : ℤ)
    (ef : ℚ) (reps r : ℤ) (h : r < 3) :
    update_spaced_repetition cfg ci ef reps r =
      (toIntTrunc ((ci : ℚ) *
          min (max (ef - 2/10) cfg.min_ease_factor) cfg.max_ease_factor),
       min (max (ef - 2/10) cfg.min_ease_factor) cfg.max_ease_factor, 0) ∧
    calculate_next_review_date cfg last r ci ef =
      some (last + toIntTrunc (min (cfg.initial_interval : ℚ) 365)) := by
  have hr : ¬ (r ≥ 3) := by omega
  constructor
  · simp [update_spaced_repetition, hr]
  · simp [calculate_next_review_date, h]

theorem C9_failure_takes_growth_branch_witness :
    ((1:ℤ) < 3) ∧
    (update_spaced_repetition cfg0 6 (5/2) 4 1 =
      (toIntTrunc ((((6:ℤ)) : ℚ) *
          min (max ((5/2 : ℚ) - 2/10) cfg0.min_ease_factor) cfg0.max_ease_factor),
       min (max ((5/2 : ℚ) - 2/10) cfg0.min_ease_factor) cfg0.max_ease_factor, 0) ∧
     calculate_next_review_date cfg0 0 1 6 (5/2) =
      some (0 + toIntTrunc (min ((cfg0.initial_interval : ℤ) : ℚ) 365))) :=
  ⟨by decide, C9_failure_takes_growth_branch cfg0 0 6 (5/2) 4 1 (by decide)⟩

/-- C4 counterexample: out-of-range ratings are not rejected — both
scheduler operations accept rating 6 and rating -1 and produce ordinary
results (the claim requires them to fail with `InvalidRating` before any
computation, but no such validation exists in `review_scheduler.py`). -/
theorem C4_counterexample_out_of_range_rating_computes :
    update_spaced_repetition cfg0 1 (5/2) 0 6 = (1, 5/2, 1) ∧
    update_spaced_repetition cfg0 1 (5/2) 0 (-1) = (2, 23/10, 0) ∧
    calculate_next_review_date cfg0 0 6 1 (5/2) = some 2 := by
  refine ⟨?_, ?_, ?_⟩
  · rw [update_success cfg0 1 (5/2) 0 6 (by omega)]
    norm_num [cfg0, max_def, min_def, toIntTrunc]
  · rw [update_failure cfg0 1 (5/2) 0 (-1) (by omega)]
    norm_num [cfg0, max_def, min_def, toIntTrunc]
  · norm_num [calculate_next_review_date, cfg0, min_def, toIntTrunc]

/-- C4 amended: neither `updateParameters` nor `nextReviewDate` validates
the rating.  Every out-of-range rating yields an ordinary result: any
rating below 0 behaves exactly like rating 0 (the failure branch ignores
the rating's value), and a result is always produced. -/
theorem C4_amended_no_rating_validation (cfg : SRConfig) (last ci : ℤ)
    (ef : ℚ) (reps r : ℤ) (h : r < 0) :
    update_spaced_repetition cfg ci ef reps r =
      update_spaced_repetition cfg ci ef reps 0 ∧
    calculate_next_review_date cfg last r ci ef =
      calculate_next_review_date cfg last 0 ci ef ∧
    (calculate_next_review_date cfg last r ci ef).isSome = true := by
  refine ⟨?_, ?_, ?_⟩
  · rw [update_failure cfg ci ef reps r (by omega),
        update_failure cfg ci ef reps 0 (by omega)]
  · simp [calculate_next_review_date, show r < 3 by omega]
  · simp [calculate_next_review_date]

theorem C4_amended_no_rating_validation_witness :
    ((-7 : ℤ) < 0) ∧
    (update_spaced_repetition cfg0 1 (5/2) 0 (-7) =
      update_spaced_repetition cfg0 1 (5/2) 0 0 ∧
    calculate_next_review_date cfg0 0 (-7) 1 (5/2) =
      calculate_next_review_date cfg0 0 0 1 (5/2) ∧
    (calculate_next_review_date cfg0 0 (-7) 1 (5/2)).isSome = true) :=
  ⟨by decide, C4_amended_no_rating_validation cfg0 0 1 (5/2) 0 (-7) (by decide)⟩

/-- C5 counterexample: `updateParameters(1, 2.5, 0, 4)` returns an ease
factor of exactly 2.5, not approximately 2.6 — rating 4 contributes
`0.1 - (0.08 + 0.02) = 0` to the ease factor (the configuration `cfg1` has
ease ceiling 3, so the 2.5 is not an artifact of the final clamp). -/
theorem C5_counterexample_rating4_ease_not_26 :
    update_spaced_repetition cfg1 1 (5/2) 0 4 = (1, 5/2, 1) ∧
    ((5/2 : ℚ) ≠ 13/5) := by
  constructor
  · rw [update_success cfg1 1 (5/2) 0 4 (by omega)]
    norm_num [cfg1, max_def, min_def, toIntTrunc]
  · norm_num

/-- C5 amended (Scenario A): `updateParameters(1, 2.5, 0, 4)` returns
`(newInterval = initialInterval = 1, newEase = 2.5 exactly,
newRepetitions = 1)`; the +0.1 ease bonus that would give 2.6 occurs only
for rating 5: `updateParameters(1, 2.5, 0, 5)` returns
`(1, 2.6, 1)`. -/
theorem C5_amended_scenarioA (cfg : SRConfig) (h1 : cfg.initial_interval = 1)
    (h2 : cfg.min_ease_factor ≤ 5/2) (h3 : (13/5 : ℚ) ≤ cfg.max_ease_factor) :
    update_spaced_repetition cfg 1 (5/2) 0 4 = (1, 5/2, 1) ∧
    update_spaced_repetition cfg 1 (5/2) 0 5 = (1, 13/5, 1) := by
  have e4 : (5/2 : ℚ) + (1/10 - ((5:ℚ) - (((4:ℤ)) : ℚ)) *
      (8/100 + ((5:ℚ) - (((4:ℤ)) : ℚ)) * (2/100))) = 5/2 := by norm_num
  have e5 : (5/2 : ℚ) + (1/10 - ((5:ℚ) - (((5:ℤ)) : ℚ)) *
      (8/100 + ((5:ℚ) - (((5:ℤ)) : ℚ)) * (2/100))) = 13/5 := by norm_num
  constructor
  · rw [update_success cfg 1 (5/2) 0 4 (by omega), e4, max_eq_left h2,
        min_eq_left (le_trans (by norm_num) h3)]
    norm_num [h1, toIntTrunc]
  · rw [update_success cfg 1 (5/2) 0 5 (by omega), e5,
        max_eq_left (le_trans h2 (by norm_num)), min_eq_left h3]
    norm_num [h1, toIntTrunc]

theorem C5_amended_scenarioA_witness :
    (cfg1.initial_interval = 1 ∧ cfg1.min_ease_factor ≤ 5/2 ∧
      (13/5 : ℚ) ≤ cfg1.max_ease_factor) ∧
    (update_spaced_repetition cfg1 1 (5/2) 0 4 = (1, 5/2, 1) ∧
     update_spaced_repetition cfg1 1 (5/2) 0 5 = (1, 13/5, 1)) :=
  ⟨⟨by decide, by norm_num [cfg1], by norm_num [cfg1]⟩,
   C5_amended_scenarioA cfg1 (by decide) (by norm_num [cfg1])
     (by norm_num [cfg1])⟩

/-! ### Achievement-engine lemmas -/

lemma award_achievement_progress (db : GamDB) (uid ty : String) :
    (award_achievement db uid ty).progress = db.progress := by
  unfold award_achievement
  split <;> rfl

lemma award_achievement_history (db : GamDB) (uid ty : String) :
    (award_achievement db uid ty).history = db.history := by
  unfold award_achievement
  split <;> rfl

lemma hasAch_award_self (db : GamDB) (uid ty : String) :
    hasAch (award_achievement db uid ty) uid ty = true := by
  unfold award_achievement
  split_ifs with h
  · exact h
  · unfold hasAch
    simp [List.any_append]

lemma hasAch_mono (db : GamDB) (uid ty uid' ty' : String)
    (h : hasAch db uid ty = true) :
    hasAch (award_achievement db uid' ty') uid ty = true := by
  unfold award_achievement
  split_ifs
  · exact h
  · unfold hasAch at h ⊢
    simp only [List.any_append, h, Bool.true_or]

lemma award_of_hasAch (db : GamDB) (uid ty : String)
    (h : hasAch db uid ty = true) :
    award_achievement db uid ty = db := by
  unfold award_achievement
  simp [h]

lemma checkSteps_progress (db : GamDB) (uid : String) (p : UserProgress) :
    (checkSteps db uid p).2.progress = db.progress := by
  unfold checkSteps
  dsimp only
  split_ifs <;> simp [award_achievement_progress]

lemma check_achievements_progress (db : GamDB) (uid : String) :
    (check_achievements db uid).2.progress = db.progress := by
  unfold check_achievements
  split
  · rfl
  · apply checkSteps_progress

lemma award_thrice_idem (X : GamDB) (uid t1 t2 t3 : String) :
    award_achievement (award_achievement (award_achievement
      (award_achievement (award_achievement (award_achievement X uid t1)
        uid t2) uid t3) uid t1) uid t2) uid t3 =
    award_achievement (award_achievement (award_achievement X uid t1)
      uid t2) uid t3 := by
  have h1 : hasAch (award_achievement (award_achievement
      (award_achievement X uid t1) uid t2) uid t3) uid t1 = true :=
    hasAch_mono _ _ _ _ _ (hasAch_mono _ _ _ _ _ (hasAch_award_self X uid t1))
  rw [award_of_hasAch _ _ _ h1]
  have h2 : hasAch (award_achievement (award_achievement
      (award_achievement X uid t1) uid t2) uid t3) uid t2 = true :=
    hasAch_mono _ _ _ _ _ (hasAch_award_self (award_achievement X uid t1) uid t2)
  rw [award_of_hasAch _ _ _ h2]
  exact award_of_hasAch _ _ _ (hasAch_award_self _ _ _)

lemma checkSteps_idem (db : GamDB) (uid : String) (p : UserProgress) :
    checkSteps (checkSteps db uid p).2 uid p = checkSteps db uid p := by
  unfold checkSteps
  dsimp only
  by_cases c1 : p.current_streak ≥ 7 <;>
    by_cases c2 : p.current_streak ≥ 30 <;>
    by_cases c3 : p.total_reviews ≥ 100 <;>
    simp [c1, c2, c3, award_of_hasAch, hasAch_award_self, hasAch_mono] <;>
    exact award_thrice_idem db uid _ _ _

/-! ### Theorems for the achievement claims -/

/-- A progress snapshot with a 7-day streak and no unlocked achievements
(`UserProgress` fields: current_streak, longest_streak, total_reviews,
total_points, last_review_date). -/
def exDB7 : GamDB := ⟨[("u", ⟨7, 7, 0, 0, none⟩)], [], []⟩

/-- C1 counterexample: calling `check_achievements` twice with the same
snapshot returns the same non-empty list on the second call, not the empty
list the claim requires — entries are appended whenever a threshold is
met, not only when the achievement row was newly inserted. -/
theorem C1_counterexample_second_call_not_empty :
    (check_achievements (check_achievements exDB7 "u").2 "u").1 =
      [{ type := "streak", name := "连续学习7天", points := 50 }] ∧
    [{ type := "streak", name := "连续学习7天", points := 50 }] ≠
      ([] : List UnlockInfo) := by
  exact ⟨by decide, by simp⟩

/-- C1 amended: only the *insertion* of achievement rows is idempotent.
A second `check_achievements` call with the same snapshot returns exactly
the same unlock list as the first call (every achievement whose threshold
the snapshot meets is re-reported, whether or not it was already unlocked)
and leaves the state unchanged. -/
theorem C1_amended_insertion_idempotent_reporting_repeated (db : GamDB)
    (uid : String) :
    check_achievements (check_achievements db uid).2 uid =
      check_achievements db uid := by
  cases hb : lookupProgress db.progress uid with
  | none =>
    have h1 : check_achievements db uid = ([], db) := by
      unfold check_achievements
      rw [hb]
    rw [h1]
    exact h1
  | some p =>
    have h1 : check_achievements db uid = checkSteps db uid p := by
      unfold check_achievements
      rw [hb]
    have hb2 : lookupProgress (checkSteps db uid p).2.progress uid = some p := by
      rw [checkSteps_progress]
      exact hb
    have h2 : check_achievements (checkSteps db uid p).2 uid =
        checkSteps (checkSteps db uid p).2 uid p := by
      unfold check_achievements
      rw [hb2]
    rw [h1, h2, checkSteps_idem]

/-- A progress snapshot with a 30-day streak, zero points and no unlocked
achievements (`UserProgress` fields: current_streak, longest_streak,
total_reviews, total_points, last_review_date). -/
def exDB30 : GamDB := ⟨[("u", ⟨30, 30, 5, 0, none⟩)], [], []⟩

/-- The `streak_30_days` row that `_award_achievement` inserts for user
"u" (fields: user_id, achievement_type, achievement_name, description,
points_awarded). -/
def row30 : AchievementRow :=
  ⟨"u", "streak_30_days", "Achievement streak_30_days",
   "Earned streak_30_days achievement", 50⟩

/-- C3 counterexample: unlocking `streak_7_days` and `streak_30_days`
leaves the owner's `total_points` at 0 (no `award_points` call is made),
and the stored `streak_30_days` row carries `points_awarded = 50`, not the
configured 200. -/
theorem C3_counterexample_no_points_credited :
    ((check_achievements exDB30 "u").2.progress.map
        (fun x => x.2.total_points) = [0]) ∧
    ((check_achievements exDB30 "u").2.achievements.map
        (fun a => (a.achievement_type, a.points_awarded)) =
      [("streak_7_days", 50), ("streak_30_days", 50)]) ∧
    ((50 : ℤ) ≠ 200) := by
  exact ⟨by decide, by decide, by decide⟩

lemma mem_award_achievement (db : GamDB) (uid ty : String)
    (a : AchievementRow)
    (ha : a ∈ (award_achievement db uid ty).achievements) :
    a ∈ db.achievements ∨ a.points_awarded = 50 := by
  unfold award_achievement at ha
  split_ifs at ha
  · exact Or.inl ha
  · dsimp only at ha
    rcases List.mem_append.mp ha with h | h
    · exact Or.inl h
    · right
      rw [List.mem_singleton.mp h]

/-- C3 amended: `check_achievements` never touches the `UserProgress`
table (no points are credited through `award_points`), and every
achievement row it inserts carries the hard-coded `points_awarded = 50`
regardless of achievement type; the per-type values 50/200/150 appear only
in the returned display entries. -/
theorem C3_amended_fixed_50_and_no_credit (db : GamDB) (uid : String) :
    (check_achievements db uid).2.progress = db.progress ∧
    ∀ a ∈ (check_achievements db uid).2.achievements,
      a ∈ db.achievements ∨ a.points_awarded = 50 := by
  refine ⟨check_achievements_progress db uid, ?_⟩
  have step : ∀ (d : GamDB) (ty : String),
      (∀ b ∈ d.achievements, b ∈ db.achievements ∨ b.points_awarded = 50) →
      ∀ a ∈ (award_achievement d uid ty).achievements,
        a ∈ db.achievements ∨ a.points_awarded = 50 := by
    intro d ty H a ha
    rcases mem_award_achievement d uid ty a ha with h | h
    · exact H a h
    · exact Or.inr h
  have base : ∀ b ∈ db.achievements,
      b ∈ db.achievements ∨ b.points_awarded = 50 := fun b hb => Or.inl hb
  unfold check_achievements
  split
  · exact base
  · unfold checkSteps
    dsimp only
    split_ifs <;>
      first
        | exact base
        | exact step _ _ base
        | exact step _ _ (step _ _ base)
        | exact step _ _ (step _ _ (step _ _ base))

theorem C3_amended_fixed_50_and_no_credit_witness :
    (check_achievements exDB30 "u").2.progress = exDB30.progress ∧
    (row30 ∈ (check_achievements exDB30 "u").2.achievements ∧
     (row30 ∈ exDB30.achievements ∨ row30.points_awarded = 50)) :=
  ⟨(C3_amended_fixed_50_and_no_credit exDB30 "u").1,
   by decide,
   (C3_amended_fixed_50_and_no_credit exDB30 "u").2 row30 (by decide)⟩

/-! ### Streak lemmas -/

lemma lookup_setProgress (l : List (String × UserProgress)) (uid : String)
    (p : UserProgress) :
    lookupProgress (setProgress l uid p) uid = some p := by
  induction l with
  | nil => simp [setProgress, lookupProgress]
  | cons x rest ih =>
    obtain ⟨u, q⟩ := x
    by_cases h : u == uid
    · simp [setProgress, h, lookupProgress]
    · simp only [setProgress, h, if_false, Bool.false_eq_true]
      rw [lookupProgress, List.find?_cons_of_neg _ (by simpa using h)]
      exact ih

lemma update_streak_history (db : GamDB) (uid : String) (today : ℤ) :
    (update_streak db uid today).history = db.history := rfl

/-- The progress row written by the non-empty branch of `update_streak`:
streak incremented and capped at 365, today recorded, longest streak
absorbing the new value. -/
def streakBump (p : UserProgress) (today : ℤ) : UserProgress :=
  { p with last_review_date := some today
           current_streak := min (p.current_streak + 1) 365
           longest_streak := max p.longest_streak (min (p.current_streak + 1) 365) }

/-- `update_streak` with a located progress row and at least one matching
history row writes back exactly the bumped row. -/
lemma update_streak_spec (db : GamDB) (uid : String) (today : ℤ)
    (p : UserProgress)
    (hp : lookupProgress db.progress uid = some p)
    (hne : (db.history.filter
      (fun h => h.user_id == some uid && decide (today ≤ h.review_date))).isEmpty = false) :
    update_streak db uid today =
      { db with progress := setProgress db.progress uid (streakBump p today) } := by
  unfold update_streak streakBump
  rw [hp]
  dsimp only [Option.getD]
  rw [hne]
  simp

/-- C10: for an owner with a `UserProgress` row and at least one
`ReviewHistory` row dated today, each `update_streak` call increments
`current_streak` by exactly 1 (capped at 365); two calls on the same day
increment it by 2, so the streak counts calls, not distinct review
days. -/
theorem C10_update_streak_increments_per_call (db : GamDB) (uid : String)
    (today : ℤ) (p : UserProgress)
    (hp : lookupProgress db.progress uid = some p)
    (hrow : ∃ h ∈ db.history, h.user_id = some uid ∧ h.review_date = today) :
    lookupProgress (update_streak db uid today).progress uid =
      some (streakBump p today) ∧
    (lookupProgress
        (update_streak (update_streak db uid today) uid today).progress uid).map
      (fun q => q.current_streak) = some (min (p.current_streak + 2) 365) := by
  have hne : (db.history.filter
      (fun h => h.user_id == some uid && decide (today ≤ h.review_date))).isEmpty = false := by
    obtain ⟨h0, hmem, hu, hd⟩ := hrow
    have hmem' : h0 ∈ db.history.filter
        (fun h => h.user_id == some uid && decide (today ≤ h.review_date)) :=
      List.mem_filter.mpr ⟨hmem, by simp [hu, hd]⟩
    cases hfe : (db.history.filter
        (fun h => h.user_id == some uid && decide (today ≤ h.review_date))) with
    | nil => rw [hfe] at hmem'; simp at hmem'
    | cons a l => simp [List.isEmpty]
  have h1 := update_streak_spec db uid today p hp hne
  constructor
  · rw [h1]
    exact lookup_setProgress db.progress uid _
  · have hp2 : lookupProgress (update_streak db uid today).progress uid =
        some (streakBump p today) := by
      rw [h1]
      exact lookup_setProgress db.progress uid _
    have hne2 : ((update_streak db uid today).history.filter
        (fun h => h.user_id == some uid && decide (today ≤ h.review_date))).isEmpty = false := by
      rw [update_streak_history]
      exact hne
    have h2 := update_streak_spec (update_streak db uid today) uid today _ hp2 hne2
    rw [h2, lookup_setProgress]
    dsimp only [Option.map, streakBump]
    have hmm2 : min (min (p.current_streak + 1) 365 + 1) 365 =
        min (p.current_streak + 2) 365 := by omega
    rw [hmm2]

/-- A state with one progress row for "u" (streak 3) and one history row
of "u" dated day 100 (`ReviewHistoryRow` fields: user_id, mistake_id,
performance_rating, review_date). -/
def exDB10 : GamDB :=
  ⟨[("u", ⟨3, 3, 10, 0, some 99⟩)], [], [⟨some "u", "m1", 4, 100⟩]⟩

/-- The progress row of "u" in `exDB10`. -/
def pEx : UserProgress := ⟨3, 3, 10, 0, some 99⟩

theorem C10_update_streak_increments_per_call_witness :
    (lookupProgress exDB10.progress "u" = some pEx ∧
      ∃ h ∈ exDB10.history, h.user_id = some "u" ∧ h.review_date = 100) ∧
    (lookupProgress (update_streak exDB10 "u" 100).progress "u" =
      some (streakBump pEx 100) ∧
    (lookupProgress
        (update_streak (update_streak exDB10 "u" 100) "u" 100).progress "u").map
      (fun q => q.current_streak) = some (min (pEx.current_streak + 2) 365)) :=
  ⟨⟨by decide, ⟨⟨some "u", "m1", 4, 100⟩, by decide, by decide, by decide⟩⟩,
   C10_update_streak_increments_per_call exDB10 "u" 100 pEx
     (by decide)
     ⟨⟨some "u", "m1", 4, 100⟩, by decide, by decide, by decide⟩⟩

/-! ### Pending-row lemmas for the batch endpoint -/

lemma isPendingFor_close (m : String) (r : ScheduledReviewRow) :
    isPendingFor m { r with is_completed := true } = false := by
  simp [isPendingFor]

lemma findPending_isSome_of_count (rows : List ScheduledReviewRow)
    (m : String) (h : pendingCount rows m ≠ 0) :
    (findPending rows m).isSome = true := by
  induction rows with
  | nil => simp [pendingCount] at h
  | cons r rs ih =>
    by_cases hr : isPendingFor m r = true
    · rw [findPending, List.find?_cons_of_pos _ hr]
      rfl
    · rw [findPending, List.find?_cons_of_neg _ (by simp [hr])]
      apply ih
      unfold pendingCount at h ⊢
      rwa [List.filter_cons_of_neg (by simp [hr])] at h

lemma pendingCount_close (rows : List ScheduledReviewRow) (m : String)
    (h : pendingCount rows m ≠ 0) :
    pendingCount (closeFirstPending rows m) m + 1 = pendingCount rows m := by
  induction rows with
  | nil => simp [pendingCount] at h
  | cons r rs ih =>
    by_cases hr : isPendingFor m r = true
    · unfold closeFirstPending
      rw [if_pos hr]
      unfold pendingCount
      rw [List.filter_cons_of_pos hr,
          List.filter_cons_of_neg (by simp [isPendingFor_close])]
      simp [pendingCount]
    · unfold closeFirstPending
      rw [if_neg (by simp [hr])]
      unfold pendingCount
      rw [List.filter_cons_of_neg (by simp [hr]),
          List.filter_cons_of_neg (by simp [hr])]
      apply ih
      unfold pendingCount at h
      rwa [List.filter_cons_of_neg (by simp [hr])] at h

lemma pendingCount_append (l l' : List ScheduledReviewRow) (m : String) :
    pendingCount (l ++ l') m = pendingCount l m + pendingCount l' m := by
  unfold pendingCount
  rw [List.filter_append, List.length_append]

/-- One batch iteration preserves "exactly one pending row" for the item
it completes. -/
lemma complete_one_pendingCount (cfg : SRConfig) (now : ℤ) (db : AppDB)
    (s : ReviewSession) (m : String) (hm : s.mistake_id = m)
    (h1 : pendingCount db.scheduled m = 1) :
    pendingCount (complete_one cfg now db s).1.scheduled m = 1 := by
  have hf : (findPending db.scheduled s.mistake_id).isSome = true := by
    rw [hm]
    exact findPending_isSome_of_count _ _ (by omega)
  have hcalc : ∀ (last r ci : ℤ) (ef : ℚ), ∃ d,
      calculate_next_review_date cfg last r ci ef = some d :=
    fun last r ci ef => ⟨_, rfl⟩
  unfold complete_one
  split
  · rename_i heq
    rw [heq] at hf
    simp at hf
  · rename_i sr heq
    obtain ⟨d, hd⟩ := hcalc now s.performance_rating
      (update_spaced_repetition cfg sr.interval_days sr.ease_factor
        sr.repetitions s.performance_rating).1
      (update_spaced_repetition cfg sr.interval_days sr.ease_factor
        sr.repetitions s.performance_rating).2.1
    dsimp only
    rw [hd]
    dsimp only
    rw [pendingCount_append]
    have hclosed : pendingCount (closeFirstPending db.scheduled s.mistake_id) m = 0 := by
      have hc := pendingCount_close db.scheduled m (by omega)
      rw [hm]
      omega
    rw [hclosed]
    have hnew : pendingCount
        [ScheduledReviewRow.mk s.mistake_id d
          (update_spaced_repetition cfg sr.interval_days sr.ease_factor
            sr.repetitions s.performance_rating).1
          (update_spaced_repetition cfg sr.interval_days sr.ease_factor
            sr.repetitions s.performance_rating).2.1
          (update_spaced_repetition cfg sr.interval_days sr.ease_factor
            sr.repetitions s.performance_rating).2.2 false] m = 1 := by
      unfold pendingCount
      rw [List.filter_cons_of_pos (by simp [isPendingFor, hm])]
      rfl
    rw [hnew]

/-- C2: if an item starts with exactly one pending `ScheduledReview` row,
then after any sequence of batch completions targeting that item exactly
one pending row exists for it: each completion closes the located row and
creates exactly one successor pending row (the next-date computation never
returns "no date"). -/
theorem C2_exactly_one_pending_invariant (cfg : SRConfig) (now : ℤ)
    (db : AppDB) (m : String) (sessions : List ReviewSession)
    (hall : ∀ s ∈ sessions, s.mistake_id = m)
    (h1 : pendingCount db.scheduled m = 1) :
    pendingCount (complete_reviews cfg now db sessions).1.scheduled m = 1 := by
  induction sessions generalizing db with
  | nil => simpa [complete_reviews]
  | cons s rest ih =>
    unfold complete_reviews
    dsimp only
    exact ih (complete_one cfg now db s).1
      (fun t ht => hall t (List.mem_cons_of_mem _ ht))
      (complete_one_pendingCount cfg now db s m
        (hall s (List.mem_cons_self _ _)) h1)

/-- A state with a single pending scheduled review for item "x"
(`ScheduledReviewRow` fields: mistake_id, scheduled_date, interval_days,
ease_factor, repetitions, is_completed). -/
def exApp : AppDB := ⟨[⟨"x", 0, 1, 5/2, 0, false⟩], ⟨[], [], []⟩⟩

theorem C2_exactly_one_pending_invariant_witness :
    ((∀ s ∈ [ReviewSession.mk "x" 4], s.mistake_id = "x") ∧
      pendingCount exApp.scheduled "x" = 1) ∧
    pendingCount
      (complete_reviews cfg0 0 exApp [ReviewSession.mk "x" 4]).1.scheduled "x" = 1 :=
  ⟨⟨by decide, by decide⟩,
   C2_exactly_one_pending_invariant cfg0 0 exApp "x" [ReviewSession.mk "x" 4]
     (by decide) (by decide)⟩

/-- A state with a single pending scheduled review for item "y" and none
for "missing". -/
def exApp8 : AppDB := ⟨[⟨"y", 0, 1, 5/2, 0, false⟩], ⟨[], [], []⟩⟩

/-- C8 counterexample: a batch `[missing, y]` where "missing" has no
pending row produces a result list containing only "y" — the missing item
is silently dropped with no per-item `NoActiveSchedule` error entry (the
claim requires the failure to be reported in the result), while the rest
of the batch is still processed. -/
theorem C8_counterexample_missing_item_not_reported :
    (complete_reviews cfg0 0 exApp8
        [ReviewSession.mk "missing" 4, ReviewSession.mk "y" 4]).2.map
      (fun r => r.mistake_id) = ["y"] := by
  rfl

/-- C8 amended: an item with no pending `ScheduledReview` is silently
skipped by the batch endpoint — it contributes no result entry and no
error, the state is unchanged by it, and the remaining items in the batch
are processed exactly as if the item had not been submitted. -/
theorem C8_amended_missing_item_silently_skipped (cfg : SRConfig) (now : ℤ)
    (db : AppDB) (s : ReviewSession) (rest : List ReviewSession)
    (h : findPending db.scheduled s.mistake_id = none) :
    complete_reviews cfg now db (s :: rest) = complete_reviews cfg now db rest := by
  have hstep : complete_one cfg now db s = (db, none) := by
    unfold complete_one
    rw [h]
  have hcons : complete_reviews cfg now db (s :: rest) =
      ((complete_reviews cfg now (complete_one cfg now db s).1 rest).1,
       (complete_one cfg now db s).2.toList ++
         (complete_reviews cfg now (complete_one cfg now db s).1 rest).2) := rfl
  rw [hcons, hstep]
  simp

theorem C8_amended_missing_item_silently_skipped_witness :
    findPending exApp8.scheduled "missing" = none ∧
    complete_reviews cfg0 0 exApp8
        [ReviewSession.mk "missing" 4, ReviewSession.mk "y" 4] =
      complete_reviews cfg0 0 exApp8 [ReviewSession.mk "y" 4] :=
  ⟨by decide,
   C8_amended_missing_item_silently_skipped cfg0 0 exApp8
     (ReviewSession.mk "missing" 4) [ReviewSession.mk "y" 4] (by decide)⟩

end StudentMistakes
